import Mathlib

/-!
Verification of the `agent-browser` daemon core (src/daemon.ts, src/browser.ts).

The embedding models, per connection, the `data`-handler loop of `startDaemon`
(buffering, line splitting, parse/dispatch, the close path), `BrowserManager`
(launch/close/isLaunched), the filesystem artifacts (socket file and pid
marker), `isDaemonRunning`, `cleanupSocket`, the startup sequence of
`startDaemon`, and the signal/timer shutdown paths.  The companion modules
`protocol.ts` (parseCommand / errorResponse) and `actions.ts` (executeCommand)
are not present in the sources of the repository; they are modelled from the spec
(§4.1, §4.2, §6) and marked as such in their doc comments.
-/

namespace AgentBrowser

mutual

/-- Modelled from the spec: the wire protocol (§6) carries JSON-object-shaped
values; `protocol.ts` itself is not in src/.  JSON values with integer
numerics (arrays and objects through the mutual types below). -/
inductive JVal where
  | jnull
  | jbool (b : Bool)
  | jnum (n : Int)
  | jstr (s : List Char)
  | jarr (xs : JList)
  | jobj (fields : JFields)
  deriving DecidableEq, Repr

/-- A list of JSON values (array elements). -/
inductive JList where
  | nil
  | cons (v : JVal) (rest : JList)
  deriving DecidableEq, Repr

/-- The key/value members of a JSON object. -/
inductive JFields where
  | nil
  | cons (k : List Char) (v : JVal) (rest : JFields)
  deriving DecidableEq, Repr

end

/-- Opening brace character (written via its code point). -/
def lbrace : Char := Char.ofNat 123

/-- Closing brace character (written via its code point). -/
def rbrace : Char := Char.ofNat 125

/-- Skip the JSON whitespace characters. -/
def skipWs : List Char → List Char
  | [] => []
  | c :: rest =>
    if c = ' ' ∨ c = '\t' ∨ c = '\n' ∨ c = '\r' then skipWs rest else c :: rest

/-- Map an escape character to the character it denotes. -/
def unescape (c : Char) : Option Char :=
  if c = '\"' then some '\"'
  else if c = '\\' then some '\\'
  else if c = '/' then some '/'
  else if c = 'n' then some '\n'
  else if c = 't' then some '\t'
  else if c = 'r' then some '\r'
  else none

/-- Parse the body of a JSON string after the opening quote; returns the
decoded content and the input after the closing quote. -/
def parseStringBody : List Char → Option (List Char × List Char)
  | [] => none
  | '\"' :: rest => some ([], rest)
  | '\\' :: e :: rest =>
    match unescape e with
    | none => none
    | some c =>
      match parseStringBody rest with
      | none => none
      | some (s, r) => some (c :: s, r)
  | c :: rest =>
    match parseStringBody rest with
    | none => none
    | some (s, r) => some (c :: s, r)

/-- Value of a list of decimal digit characters. -/
def digitsToNat (ds : List Char) : Nat :=
  ds.foldl (fun a c => a * 10 + (c.toNat - 48)) 0

/-- Parse a JSON integer (optional minus sign, then decimal digits). -/
def parseNumber (s : List Char) : Option (JVal × List Char) :=
  match s with
  | '-' :: rest =>
    let ds := rest.takeWhile Char.isDigit
    if ds.isEmpty then none
    else some (JVal.jnum (-(digitsToNat ds : Int)), rest.drop ds.length)
  | _ =>
    let ds := s.takeWhile Char.isDigit
    if ds.isEmpty then none
    else some (JVal.jnum (digitsToNat ds), s.drop ds.length)

mutual

/-- Fuel-driven JSON value parse. -/
def parseValue : Nat → List Char → Option (JVal × List Char)
  | 0, _ => none
  | Nat.succ fuel, s =>
    match skipWs s with
    | [] => none
    | c :: rest =>
      if c = '\"' then
        match parseStringBody rest with
        | none => none
        | some (str, r) => some (JVal.jstr str, r)
      else if c = lbrace then parseObjFields fuel rest
      else if c = '[' then parseArrElems fuel rest
      else if c = 't' then
        match rest with
        | 'r' :: 'u' :: 'e' :: r => some (JVal.jbool true, r)
        | _ => none
      else if c = 'f' then
        match rest with
        | 'a' :: 'l' :: 's' :: 'e' :: r => some (JVal.jbool false, r)
        | _ => none
      else if c = 'n' then
        match rest with
        | 'u' :: 'l' :: 'l' :: r => some (JVal.jnull, r)
        | _ => none
      else if c.isDigit ∨ c = '-' then parseNumber (c :: rest)
      else none

/-- Parse object members from right after the opening brace (or a comma). -/
def parseObjFields : Nat → List Char → Option (JVal × List Char)
  | 0, _ => none
  | Nat.succ fuel, s =>
    match skipWs s with
    | [] => none
    | c :: rest =>
      if c = rbrace then some (JVal.jobj JFields.nil, rest)
      else if c = '\"' then
        match parseStringBody rest with
        | none => none
        | some (key, r1) =>
          match skipWs r1 with
          | ':' :: r2 =>
            match parseValue fuel r2 with
            | none => none
            | some (v, r3) =>
              match skipWs r3 with
              | ',' :: r4 =>
                match parseObjFields fuel r4 with
                | some (JVal.jobj fs, r5) => some (JVal.jobj (JFields.cons key v fs), r5)
                | _ => none
              | c2 :: r4 =>
                if c2 = rbrace then some (JVal.jobj (JFields.cons key v JFields.nil), r4)
                else none
              | [] => none
          | _ => none
      else none

/-- Parse array elements from right after the opening bracket (or a comma). -/
def parseArrElems : Nat → List Char → Option (JVal × List Char)
  | 0, _ => none
  | Nat.succ fuel, s =>
    match skipWs s with
    | [] => none
    | c :: rest =>
      if c = ']' then some (JVal.jarr JList.nil, rest)
      else
        match parseValue fuel (c :: rest) with
        | none => none
        | some (v, r1) =>
          match skipWs r1 with
          | ',' :: r2 =>
            match parseArrElems fuel r2 with
            | some (JVal.jarr xs, r3) => some (JVal.jarr (JList.cons v xs), r3)
            | _ => none
          | c2 :: r2 =>
            if c2 = ']' then some (JVal.jarr (JList.cons v JList.nil), r2) else none
          | [] => none

end

/-- Parse one whole line as a JSON value (whole input must be consumed). -/
def parseJson (s : List Char) : Option JVal :=
  match parseValue (s.length + 1) s with
  | some (v, rest) => if skipWs rest = [] then some v else none
  | none => none

/-- Browser engine choice (src/browser.ts: chromium, firefox, webkit). -/
inductive Engine where
  | chromium
  | firefox
  | webkit
  deriving DecidableEq, Repr

/-- Viewport dimensions (src/browser.ts default 1280×720). -/
structure Viewport where
  width : Nat
  height : Nat
  deriving DecidableEq, Repr

/-- The fixed action set of the protocol (spec §3).  The source action string
`type` is rendered by the constructor `typeText`. -/
inductive Action where
  | navigate
  | click
  | typeText
  | press
  | wait
  | screenshot
  | snapshot
  | content
  | evaluate
  | scroll
  | hover
  | select
  | launch
  | close
  deriving DecidableEq, Repr

/-- Action recognised from its wire name (spec §3). -/
def actionOfString (s : List Char) : Option Action :=
  if s = "navigate".toList then some Action.navigate
  else if s = "click".toList then some Action.click
  else if s = "type".toList then some Action.typeText
  else if s = "press".toList then some Action.press
  else if s = "wait".toList then some Action.wait
  else if s = "screenshot".toList then some Action.screenshot
  else if s = "snapshot".toList then some Action.snapshot
  else if s = "content".toList then some Action.content
  else if s = "evaluate".toList then some Action.evaluate
  else if s = "scroll".toList then some Action.scroll
  else if s = "hover".toList then some Action.hover
  else if s = "select".toList then some Action.select
  else if s = "launch".toList then some Action.launch
  else if s = "close".toList then some Action.close
  else none

/-- A decoded command (spec §3): `id` and `action` always present, other
fields action-dependent and optional. -/
structure Command where
  id : String
  action : Action
  url : Option String := none
  selector : Option String := none
  text : Option String := none
  browser : Option Engine := none
  headless : Option Bool := none
  viewport : Option Viewport := none
  deriving DecidableEq, Repr

/-- A wire response (spec §3): correlated by `id`, `success` flag, and either
`data` or `error`. -/
structure Response where
  id : String
  success : Bool
  data : Option (List (String × JVal)) := none
  error : Option String := none
  deriving DecidableEq, Repr

/-- Modelled from the spec: `errorResponse` of the missing protocol.ts (§4.1
`makeError`): a well-formed failure Response. -/
def errorResponse (id : String) (message : String) : Response :=
  { id := id, success := false, error := some message }

/-- Outcome of decoding one line (shape used by daemon.ts: `.success`,
`.id`, `.error`, `.command`). -/
inductive ParseResult where
  | ok (command : Command)
  | fail (id : Option String) (error : String)
  deriving DecidableEq, Repr

/-- First value bound to `key` among the members of a JSON object. -/
def jlookup (fields : JFields) (key : String) : Option JVal :=
  match fields with
  | JFields.nil => none
  | JFields.cons k v rest => if k = key.toList then some v else jlookup rest key

/-- Optional string field of a decoded object. -/
def getStrField (fields : JFields) (key : String) : Option String :=
  match jlookup fields key with
  | some (JVal.jstr s) => some (String.mk s)
  | _ => none

/-- Optional boolean field of a decoded object. -/
def getBoolField (fields : JFields) (key : String) : Option Bool :=
  match jlookup fields key with
  | some (JVal.jbool b) => some b
  | _ => none

/-- Optional browser-engine field of a decoded object. -/
def getEngineField (fields : JFields) : Option Engine :=
  match jlookup fields "browser" with
  | some (JVal.jstr s) =>
    if s = "firefox".toList then some Engine.firefox
    else if s = "webkit".toList then some Engine.webkit
    else if s = "chromium".toList then some Engine.chromium
    else none
  | _ => none

/-- Optional viewport field of a decoded object. -/
def getViewportField (fields : JFields) : Option Viewport :=
  match jlookup fields "viewport" with
  | some (JVal.jobj vf) =>
    match jlookup vf "width", jlookup vf "height" with
    | some (JVal.jnum w), some (JVal.jnum h) =>
      if 0 ≤ w ∧ 0 ≤ h then some ⟨w.toNat, h.toNat⟩ else none
    | _, _ => none
  | _ => none

/-- Modelled from the spec: `parseCommand` of the missing protocol.ts.
§4.1: reject non-well-formed structured text (`MalformedPayload`), a missing
or unrecognized `action` (`UnknownAction`), and a missing `id` (`MissingId`),
recovering whatever id fragment it can so the error can be correlated. -/
def parseCommand (line : List Char) : ParseResult :=
  match parseJson line with
  | none => ParseResult.fail none "Malformed command: invalid JSON"
  | some (JVal.jobj fields) =>
    let idOpt := getStrField fields "id"
    match jlookup fields "action" with
    | some (JVal.jstr a) =>
      match actionOfString a with
      | some act =>
        match idOpt with
        | some i =>
          ParseResult.ok
            { id := i, action := act,
              url := getStrField fields "url",
              selector := getStrField fields "selector",
              text := getStrField fields "text",
              browser := getEngineField fields,
              headless := getBoolField fields "headless",
              viewport := getViewportField fields }
        | none => ParseResult.fail none "Missing id"
      | none => ParseResult.fail idOpt ("Unknown action: " ++ String.mk a)
    | _ => ParseResult.fail idOpt "Missing action"
  | some _ => ParseResult.fail none "Malformed command: not an object"

/-! ## BrowserManager (src/browser.ts)

Handles (Playwright `Browser` / `BrowserContext` / `Page` instances) are
modelled as numeric identifiers drawn from a freshness counter `nextId`; the
failures that `close` swallows (`.catch(() => ⟨⟩)`) are driven by an explicit
oracle recording which sub-closures fail. -/

/-- Which of the three sub-handle closures fail (swallowed by `close`). -/
structure FailOracle where
  pageFails : Bool := false
  contextFails : Bool := false
  browserFails : Bool := false
  deriving DecidableEq, Repr

/-- The oracle under which every closure succeeds. -/
def noFail : FailOracle := {}

/-- The `state` field of BrowserManager: nullable browser, context and page
handles, plus the freshness counter of the embedding. -/
structure BrowserState where
  browser : Option Nat := none
  context : Option Nat := none
  page : Option Nat := none
  nextId : Nat := 0
  deriving DecidableEq, Repr

/-- Observable browser-side effects. -/
inductive BEvent where
  | pageClosed (h : Nat) (ok : Bool)
  | contextClosed (h : Nat) (ok : Bool)
  | browserClosed (h : Nat) (ok : Bool)
  | browserLaunched (h : Nat) (engine : Engine) (headless : Bool)
  | contextCreated (h : Nat) (viewport : Viewport)
  | pageCreated (h : Nat)
  deriving DecidableEq, Repr

/-- src/browser.ts `isLaunched`: the browser handle is non-null. -/
def BrowserManager.isLaunched (st : BrowserState) : Bool :=
  st.browser.isSome

/-- src/browser.ts `close`: close page, context and browser in that order,
the failure of each attempt swallowed, each handle nulled. -/
def BrowserManager.close (st : BrowserState) (f : FailOracle) :
    BrowserState × List BEvent :=
  let (st1, e1) :=
    match st.page with
    | some p => ({ st with page := none }, [BEvent.pageClosed p (!f.pageFails)])
    | none => (st, [])
  let (st2, e2) :=
    match st1.context with
    | some c => ({ st1 with context := none }, [BEvent.contextClosed c (!f.contextFails)])
    | none => (st1, [])
  let (st3, e3) :=
    match st2.browser with
    | some b => ({ st2 with browser := none }, [BEvent.browserClosed b (!f.browserFails)])
    | none => (st2, [])
  (st3, e1 ++ e2 ++ e3)

/-- src/browser.ts `launch`: close any existing browser first, then launch
the selected engine (`options.browser` defaulting to chromium) with
`options.headless ?? true`, create a context with
`options.viewport ?? 1280×720`, and create the initial page. -/
def BrowserManager.launch (st : BrowserState) (options : Command) (f : FailOracle) :
    BrowserState × List BEvent :=
  let (st1, closeEvs) :=
    if st.browser.isSome then BrowserManager.close st f else (st, [])
  let b := st1.nextId
  let engine := options.browser.getD Engine.chromium
  let headless := options.headless.getD true
  let vp := options.viewport.getD ⟨1280, 720⟩
  ({ browser := some b, context := some (b + 1), page := some (b + 2), nextId := b + 3 },
   closeEvs ++
     [BEvent.browserLaunched b engine headless,
      BEvent.contextCreated (b + 1) vp,
      BEvent.pageCreated (b + 2)])

/-! ## Dispatch and daemon (src/daemon.ts) -/

/-- Observable daemon-side effects, in the order they are performed. -/
inductive Ev where
  | bev (e : BEvent)
  | exec (c : Command)
  | wrote (r : Response)
  | serverClosed
  | cleanedSocket
  | exitProc (code : Nat)
  deriving DecidableEq, Repr

/-- Result data of a command, keyed per action (success markers). -/
def execData (c : Command) : List (String × JVal) :=
  match c.action with
  | Action.launch => [("launched", JVal.jbool true)]
  | Action.close => [("closed", JVal.jbool true)]
  | _ => [("ok", JVal.jbool true)]

/-- The success Response a command produces (correlated by the command id). -/
def responseFor (c : Command) : Response :=
  { id := c.id, success := true, data := some (execData c) }

/-- Modelled from the spec: `executeCommand` of the missing actions.ts.
§4.2: `launch` performs acquisition with the supplied options (replacing any
existing resource); `close` executes the release of the resource and responds
with the `closed` marker (§8 scenario); any other action invokes the opaque
execution capability, leaving the resource state unchanged.  Execution
results of ordinary actions are abstracted as a success marker. -/
def executeCommand (c : Command) (bm : BrowserState) :
    BrowserState × Response × List Ev :=
  match c.action with
  | Action.launch =>
    let (bm1, evs) := BrowserManager.launch bm c noFail
    (bm1, responseFor c, evs.map Ev.bev)
  | Action.close =>
    let (bm1, evs) := BrowserManager.close bm noFail
    (bm1, responseFor c, evs.map Ev.bev)
  | _ => (bm, responseFor c, [Ev.exec c])

/-- The durable artifacts (spec §6): the socket file at the well-known path
and the pid marker file with its raw content. -/
structure FsState where
  socketFile : Bool := false
  pidFile : Option (List Char) := none
  deriving DecidableEq, Repr

/-- src/daemon.ts `cleanupSocket`: unlink the socket file and the pid file if
present (errors ignored). -/
def cleanupSocket (fs : FsState) : FsState :=
  { socketFile := false, pidFile := none }

/-- The pid recorded in the marker: JS `parseInt(content.trim(), 10)`,
reading the leading decimal digits; no digits means `NaN` (here `none`). -/
def parsePid (s : List Char) : Option Nat :=
  let t := ((s.dropWhile Char.isWhitespace).reverse.dropWhile Char.isWhitespace).reverse
  let ds := t.takeWhile Char.isDigit
  if ds.isEmpty then none else some (digitsToNat ds)

/-- src/daemon.ts `isDaemonRunning`: no pid file means not running; otherwise
probe the recorded pid with `process.kill(pid, 0)` — modelled as membership
in the list of live pids — and on a dead (or unparsable, since `kill` then
throws) pid run `cleanupSocket` and report not running. -/
def isDaemonRunning (fs : FsState) (livePids : List Nat) : Bool × FsState :=
  match fs.pidFile with
  | none => (false, fs)
  | some content =>
    match parsePid content with
    | some pid =>
      if livePids.contains pid then (true, fs) else (false, cleanupSocket fs)
    | none => (false, cleanupSocket fs)

/-- Decimal digits of a natural number (JS `pid.toString()`), via fuel. -/
def natCharsAux : Nat → Nat → List Char
  | 0, _ => []
  | fuel + 1, n =>
    if n < 10 then [Char.ofNat (48 + n)]
    else natCharsAux fuel (n / 10) ++ [Char.ofNat (48 + n % 10)]

/-- Decimal representation of a natural number. -/
def natChars (n : Nat) : List Char := natCharsAux (n + 1) n

/-- Filesystem-level effects of the daemon startup sequence. -/
inductive StartEv where
  | removedSocketFile
  | removedPidFile
  | wrotePidFile (pid : Nat)
  | bindOk
  | bindError
  | exited (code : Nat)
  deriving DecidableEq, Repr

/-- src/daemon.ts `startDaemon`, startup phase: unconditionally
`cleanupSocket()` (unlinking whatever socket/pid files exist at the
well-known paths), write the pid file with the current process id, then
`server.listen` — the bind succeeds exactly when no file occupies the socket
path; a bind error is reported, runs `cleanupSocket` again, and exits with
status 1 (the server error handler).  Returns the resulting
filesystem, the effect trace, and the exit status (`none` = still running). -/
def startDaemonStartup (fs : FsState) (selfPid : Nat) :
    FsState × List StartEv × Option Nat :=
  let evs1 :=
    (if fs.socketFile then [StartEv.removedSocketFile] else []) ++
    (if fs.pidFile.isSome then [StartEv.removedPidFile] else [])
  let fs1 := cleanupSocket fs
  let fs2 := { fs1 with pidFile := some (natChars selfPid) }
  if fs2.socketFile then
    (cleanupSocket fs2,
     evs1 ++ [StartEv.wrotePidFile selfPid, StartEv.bindError, StartEv.exited 1],
     some 1)
  else
    ({ fs2 with socketFile := true },
     evs1 ++ [StartEv.wrotePidFile selfPid, StartEv.bindOk],
     none)

/-- Process-wide daemon state: the shared BrowserManager, the `shuttingDown`
flag, whether the shutdown timer of the close path is pending, the artifacts, and
the exit status once `process.exit` has run. -/
structure DaemonState where
  bm : BrowserState := {}
  fs : FsState := {}
  shuttingDown : Bool := false
  timerPending : Bool := false
  exited : Option Nat := none
  deriving DecidableEq, Repr

/-- Daemon state right after a successful startup with process id `selfPid`:
socket bound, pid marker written, browser not launched. -/
def initialDaemon (selfPid : Nat) : DaemonState :=
  { fs := { socketFile := true, pidFile := some (natChars selfPid) } }

/-- The auto-launch options of src/daemon.ts line 91:
an auto id, a launch action and headless true. -/
def autoLaunchCommand : Command :=
  { id := "auto", action := Action.launch, headless := some true }

/-- JS `!line.trim()`: the line is empty or all whitespace. -/
def isBlank (l : List Char) : Bool := l.all Char.isWhitespace

/-- One iteration of the `data`-handler loop of src/daemon.ts (lines 78-115)
on an extracted line: skip blank lines; on a parse failure write
an error response under the recovered id, defaulting to the fallback id; otherwise auto-launch
when the browser is not launched and the action is neither `launch` nor
`close`; then execute.  The close path writes the response, arms the
100 ms shutdown timer unless `shuttingDown` is already set, and leaves the
handler early (the returned flag).  The surrounding `try/catch` is
unreachable here because every embedded operation is total. -/
def processLine (d : DaemonState) (line : List Char) :
    DaemonState × List Ev × Bool :=
  if isBlank line then (d, [], false)
  else
    match parseCommand line with
    | ParseResult.fail fid err =>
      (d, [Ev.wrote (errorResponse (fid.getD "unknown") err)], false)
    | ParseResult.ok cmd =>
      let (d1, evs0) :=
        if !(BrowserManager.isLaunched d.bm) && cmd.action != Action.launch &&
            cmd.action != Action.close then
          let (bm1, evs) := BrowserManager.launch d.bm autoLaunchCommand noFail
          ({ d with bm := bm1 }, evs.map Ev.bev)
        else (d, [])
      if cmd.action = Action.close then
        let (bm2, resp, evs1) := executeCommand cmd d1.bm
        let d2 := { d1 with bm := bm2 }
        let d3 :=
          if !d2.shuttingDown then
            { d2 with shuttingDown := true, timerPending := true }
          else d2
        (d3, evs0 ++ evs1 ++ [Ev.wrote resp], true)
      else
        let (bm2, resp, evs1) := executeCommand cmd d1.bm
        ({ d1 with bm := bm2 }, evs0 ++ evs1 ++ [Ev.wrote resp], false)

/-- Run the handler loop over the extracted complete lines, stopping early
(and reporting the unconsumed lines) when a close command returns out of the
handler. -/
def processLines : DaemonState → List (List Char) →
    DaemonState × List Ev × List (List Char)
  | d, [] => (d, [], [])
  | d, l :: rest =>
    let (d1, evs, early) := processLine d l
    if early then (d1, evs, rest)
    else
      let (d2, evs2, rem) := processLines d1 rest
      (d2, evs ++ evs2, rem)

/-- Split a byte buffer into the complete (newline-terminated) lines and the
trailing partial line, exactly as the repeated
`indexOf('\n')` / `substring` loop does. -/
def splitLines : List Char → List (List Char) × List Char
  | [] => ([], [])
  | c :: rest =>
    if c = '\n' then
      ([] :: (splitLines rest).1, (splitLines rest).2)
    else
      match splitLines rest with
      | ([], r) => ([], c :: r)
      | (l :: ls, r) => ((c :: l) :: ls, r)

/-- Re-attach unconsumed complete lines (with their delimiters) in front of
the trailing partial line. -/
def rejoinLines (ls : List (List Char)) (r : List Char) : List Char :=
  ls.foldr (fun l acc => l ++ '\n' :: acc) r

/-- Per-connection state: the Connection Buffer plus the shared daemon
state. -/
structure ConnState where
  buffer : List Char := []
  d : DaemonState
  deriving DecidableEq, Repr

/-- The socket `data` handler (src/daemon.ts lines 69-117): append the chunk
to the buffer, extract and process every complete line (the close path stops
the loop early, leaving the rest buffered). -/
def feedChunk (cs : ConnState) (chunk : List Char) : ConnState × List Ev :=
  let buf := cs.buffer ++ chunk
  let (ls, r) := splitLines buf
  let (d1, evs, rem) := processLines cs.d ls
  ({ buffer := rejoinLines rem r, d := d1 }, evs)

/-- Deliver a sequence of chunks to one connection. -/
def feedChunks : ConnState → List (List Char) → ConnState × List Ev
  | cs, [] => (cs, [])
  | cs, c :: rest =>
    let (cs1, evs) := feedChunk cs c
    let (cs2, evs2) := feedChunks cs1 rest
    (cs2, evs ++ evs2)

/-- src/daemon.ts `shutdown` (SIGINT/SIGTERM handler): return if already
shutting down, else close the browser, stop the server, clean up the
artifacts and exit 0.  A no-op once the process has exited. -/
def shutdownSig (d : DaemonState) : DaemonState × List Ev :=
  if d.exited.isSome then (d, [])
  else if d.shuttingDown then (d, [])
  else
    let (bm1, bevs) := BrowserManager.close d.bm noFail
    ({ d with
        bm := bm1
        shuttingDown := true
        fs := cleanupSocket d.fs
        exited := some 0 },
     bevs.map Ev.bev ++ [Ev.serverClosed, Ev.cleanedSocket, Ev.exitProc 0])

/-- The 100 ms timer callback of the close path (src/daemon.ts lines 101-105):
`server.close(); cleanupSocket(); process.exit(0)` — it runs only if it was
armed and the process is still alive. -/
def timerFire (d : DaemonState) : DaemonState × List Ev :=
  if d.timerPending && d.exited.isNone then
    ({ d with
        timerPending := false
        fs := cleanupSocket d.fs
        exited := some 0 },
     [Ev.serverClosed, Ev.cleanedSocket, Ev.exitProc 0])
  else (d, [])

/-- An externally observable scheduling step: a data chunk arriving on the
connection, a termination signal, or the pending close timer firing. -/
inductive Step where
  | chunk (s : List Char)
  | signal
  | timer
  deriving DecidableEq, Repr

/-- Interleaved execution: chunks are handled only while the process is
alive; signals and the timer go through their own guards. -/
def doStep (cs : ConnState) : Step → ConnState × List Ev
  | Step.chunk s => if cs.d.exited.isSome then (cs, []) else feedChunk cs s
  | Step.signal =>
    let (d1, evs) := shutdownSig cs.d
    ({ cs with d := d1 }, evs)
  | Step.timer =>
    let (d1, evs) := timerFire cs.d
    ({ cs with d := d1 }, evs)

/-- Run a sequence of steps, concatenating the effect traces. -/
def runSteps : ConnState → List Step → ConnState × List Ev
  | cs, [] => (cs, [])
  | cs, s :: rest =>
    let (cs1, evs) := doStep cs s
    let (cs2, evs2) := runSteps cs1 rest
    (cs2, evs ++ evs2)

/-- Connection to a freshly started daemon with process id `selfPid`. -/
def initialConn (selfPid : Nat) : ConnState :=
  { buffer := [], d := initialDaemon selfPid }

/-- The responses written on the socket, extracted from an effect trace. -/
def writesOf (evs : List Ev) : List Response :=
  evs.filterMap fun e =>
    match e with
    | Ev.wrote r => some r
    | _ => none

/-- The response that processing a given (non-blank) line writes: an error
response on decode failure, the own response of the command otherwise. -/
def respOf (l : List Char) : Response :=
  match parseCommand l with
  | ParseResult.fail fid err => errorResponse (fid.getD "unknown") err
  | ParseResult.ok cmd => responseFor cmd

/-- Whether a line is a frame carrying a close command. -/
def closeFrame (l : List Char) : Bool :=
  !(isBlank l) &&
    (match parseCommand l with
     | ParseResult.ok cmd => decide (cmd.action = Action.close)
     | ParseResult.fail _ _ => false)

/-- The protocol frames of a byte stream: its complete lines that are not
blank (blank lines are silently skipped, spec §4.3). -/
def frames (s : List Char) : List (List Char) :=
  (splitLines s).1.filter (fun l => !(isBlank l))

/-- Number of browser acquisitions (launch side effects) in a trace. -/
def acquisitions (evs : List Ev) : Nat :=
  evs.countP fun e =>
    match e with
    | Ev.bev (BEvent.browserLaunched _ _ _) => true
    | _ => false

/-- Number of `process.exit` effects in a trace. -/
def exitCount (evs : List Ev) : Nat :=
  evs.countP fun e =>
    match e with
    | Ev.exitProc _ => true
    | _ => false

/-- Number of artifact-cleanup effects in a trace. -/
def cleanCount (evs : List Ev) : Nat :=
  evs.countP fun e =>
    match e with
    | Ev.cleanedSocket => true
    | _ => false

/-- Number of stop-accepting-connections effects in a trace. -/
def serverCloseCount (evs : List Ev) : Nat :=
  evs.countP fun e =>
    match e with
    | Ev.serverClosed => true
    | _ => false

/-- Events a connection handler can emit while processing lines (everything
except the shutdown-sequence events). -/
def benign (e : Ev) : Bool :=
  match e with
  | Ev.bev _ => true
  | Ev.exec _ => true
  | Ev.wrote _ => true
  | _ => false

/-- Processing of a close line followed by the pending timer firing (the
complete close/shutdown sequence of the code). -/
def closeThenTimer (d : DaemonState) (line : List Char) : DaemonState × List Ev :=
  let (d1, evs, _) := processLine d line
  let (d2, evs2) := timerFire d1
  (d2, evs ++ evs2)

/-! ## Lemmas and claim theorems -/

theorem skipWs_of_blank : ∀ l : List Char, isBlank l = true → skipWs l = []
  | [], _ => rfl
  | c :: rest, h => by
    unfold isBlank at h
    simp only [List.all_cons, Bool.and_eq_true] at h
    obtain ⟨hc, hrest⟩ := h
    unfold skipWs
    rw [if_pos ?_]
    · exact skipWs_of_blank rest (by simpa [isBlank] using hrest)
    · unfold Char.isWhitespace at hc
      simp only [Bool.or_eq_true, decide_eq_true_eq] at hc
      tauto

theorem parseJson_of_blank (l : List Char) (h : isBlank l = true) :
    parseJson l = none := by
  unfold parseJson parseValue
  rw [skipWs_of_blank l h]

theorem parseCommand_ok_not_blank {l : List Char} {cmd : Command}
    (h : parseCommand l = ParseResult.ok cmd) : isBlank l = false := by
  by_contra hb
  have hb' : isBlank l = true := by
    cases hbl : isBlank l
    · exact absurd hbl hb
    · rfl
  rw [parseCommand, parseJson_of_blank l hb'] at h
  exact ParseResult.noConfusion h

theorem parseCommand_of_noJson {l : List Char} (h : parseJson l = none) :
    parseCommand l = ParseResult.fail none "Malformed command: invalid JSON" := by
  rw [parseCommand, h]

theorem executeCommand_other {cmd : Command} (bm : BrowserState)
    (h1 : cmd.action ≠ Action.launch) (h2 : cmd.action ≠ Action.close) :
    executeCommand cmd bm = (bm, responseFor cmd, [Ev.exec cmd]) := by
  unfold executeCommand
  cases h : cmd.action <;> first
    | rfl
    | exact absurd h h1
    | exact absurd h h2

theorem processLine_fail (d : DaemonState) (l : List Char) (fid : Option String)
    (err : String) (h1 : isBlank l = false)
    (h2 : parseCommand l = ParseResult.fail fid err) :
    processLine d l =
      (d, [Ev.wrote (errorResponse (fid.getD "unknown") err)], false) := by
  unfold processLine
  rw [h1, h2]
  rfl

theorem processLine_auto (d : DaemonState) (l : List Char) (cmd : Command)
    (hp : parseCommand l = ParseResult.ok cmd)
    (h1 : cmd.action ≠ Action.launch) (h2 : cmd.action ≠ Action.close)
    (hbm : d.bm.browser = none) :
    processLine d l =
      ({ d with bm :=
          { browser := some d.bm.nextId, context := some (d.bm.nextId + 1),
            page := some (d.bm.nextId + 2), nextId := d.bm.nextId + 3 } },
       [Ev.bev (BEvent.browserLaunched d.bm.nextId Engine.chromium true),
        Ev.bev (BEvent.contextCreated (d.bm.nextId + 1) ⟨1280, 720⟩),
        Ev.bev (BEvent.pageCreated (d.bm.nextId + 2)),
        Ev.exec cmd, Ev.wrote (responseFor cmd)], false) := by
  have hnb := parseCommand_ok_not_blank hp
  have hL : BrowserManager.isLaunched d.bm = false := by
    unfold BrowserManager.isLaunched
    rw [hbm]
    rfl
  have hlaunch : BrowserManager.launch d.bm autoLaunchCommand noFail =
      ({ browser := some d.bm.nextId, context := some (d.bm.nextId + 1),
         page := some (d.bm.nextId + 2), nextId := d.bm.nextId + 3 },
       [BEvent.browserLaunched d.bm.nextId Engine.chromium true,
        BEvent.contextCreated (d.bm.nextId + 1) ⟨1280, 720⟩,
        BEvent.pageCreated (d.bm.nextId + 2)]) := by
    unfold BrowserManager.launch
    rw [if_neg (by rw [hbm]; simp)]
    rfl
  simp [processLine, hnb, hp, hL, hlaunch, h1, h2, executeCommand_other _ h1 h2]

theorem processLine_launched (d : DaemonState) (l : List Char) (cmd : Command)
    (b : Nat) (hp : parseCommand l = ParseResult.ok cmd)
    (h1 : cmd.action ≠ Action.launch) (h2 : cmd.action ≠ Action.close)
    (hbm : d.bm.browser = some b) :
    processLine d l = (d, [Ev.exec cmd, Ev.wrote (responseFor cmd)], false) := by
  have hnb := parseCommand_ok_not_blank hp
  have hL : BrowserManager.isLaunched d.bm = true := by
    unfold BrowserManager.isLaunched
    rw [hbm]
    rfl
  simp [processLine, hnb, hp, hL, h2, executeCommand_other _ h1 h2]

theorem processLine_blank (d : DaemonState) (l : List Char) (h : isBlank l = true) :
    processLine d l = (d, [], false) := by
  unfold processLine
  rw [h]
  rfl

theorem processLine_launchAction (d : DaemonState) (l : List Char) (cmd : Command)
    (hp : parseCommand l = ParseResult.ok cmd) (hla : cmd.action = Action.launch) :
    processLine d l =
      ({ d with bm := (BrowserManager.launch d.bm cmd noFail).1 },
       (BrowserManager.launch d.bm cmd noFail).2.map Ev.bev ++
         [Ev.wrote (responseFor cmd)], false) := by
  have hnb := parseCommand_ok_not_blank hp
  have hexec : executeCommand cmd d.bm =
      ((BrowserManager.launch d.bm cmd noFail).1, responseFor cmd,
       (BrowserManager.launch d.bm cmd noFail).2.map Ev.bev) := by
    unfold executeCommand
    rw [hla]
  have hncl : cmd.action ≠ Action.close := by rw [hla]; intro hcc; cases hcc
  simp [processLine, hnb, hp, hla, hncl, hexec]

theorem processLine_close (d : DaemonState) (l : List Char) (cmd : Command)
    (hp : parseCommand l = ParseResult.ok cmd) (hc : cmd.action = Action.close)
    (hs : d.shuttingDown = false) :
    processLine d l =
      ({ d with
          bm := (BrowserManager.close d.bm noFail).1
          shuttingDown := true
          timerPending := true },
       (BrowserManager.close d.bm noFail).2.map Ev.bev ++
         [Ev.wrote { id := cmd.id, success := true,
                     data := some [("closed", JVal.jbool true)] }], true) := by
  have hnb := parseCommand_ok_not_blank hp
  have hexec : executeCommand cmd d.bm =
      ((BrowserManager.close d.bm noFail).1,
       { id := cmd.id, success := true, data := some [("closed", JVal.jbool true)] },
       (BrowserManager.close d.bm noFail).2.map Ev.bev) := by
    unfold executeCommand responseFor execData
    rw [hc]
  simp [processLine, hnb, hp, hc, hs, hexec]

theorem processLine_close_shutting (d : DaemonState) (l : List Char) (cmd : Command)
    (hp : parseCommand l = ParseResult.ok cmd) (hc : cmd.action = Action.close)
    (hs : d.shuttingDown = true) :
    processLine d l =
      ({ d with bm := (BrowserManager.close d.bm noFail).1 },
       (BrowserManager.close d.bm noFail).2.map Ev.bev ++
         [Ev.wrote { id := cmd.id, success := true,
                     data := some [("closed", JVal.jbool true)] }], true) := by
  have hnb := parseCommand_ok_not_blank hp
  have hexec : executeCommand cmd d.bm =
      ((BrowserManager.close d.bm noFail).1,
       { id := cmd.id, success := true, data := some [("closed", JVal.jbool true)] },
       (BrowserManager.close d.bm noFail).2.map Ev.bev) := by
    unfold executeCommand responseFor execData
    rw [hc]
  simp [processLine, hnb, hp, hc, hs, hexec]

theorem executeCommand_resp (cmd : Command) (bm : BrowserState) :
    (executeCommand cmd bm).2.1 = responseFor cmd := by
  cases h : cmd.action <;> simp [executeCommand, h]

theorem writesOf_append (a b : List Ev) :
    writesOf (a ++ b) = writesOf a ++ writesOf b :=
  List.filterMap_append a b _

theorem writesOf_map_bev (evs : List BEvent) :
    writesOf (evs.map Ev.bev) = [] := by
  induction evs with
  | nil => rfl
  | cons e rest ih => simpa [writesOf] using ih

theorem all_benign_map_bev (evs : List BEvent) :
    (evs.map Ev.bev).all benign = true := by
  induction evs with
  | nil => rfl
  | cons e rest ih => simpa [benign] using ih

/-- Branch-independent shape of one handler iteration: the exit status and
the artifacts are untouched, the early-return flag is exactly "the line is a
close frame", the responses written are exactly the one response of the line
(none for a blank line), and no shutdown-sequence event is emitted. -/
theorem processLine_shape (d : DaemonState) (l : List Char) :
    (processLine d l).1.exited = d.exited ∧
    (processLine d l).1.fs = d.fs ∧
    (processLine d l).2.2 = closeFrame l ∧
    writesOf (processLine d l).2.1 = (if isBlank l = true then [] else [respOf l]) ∧
    ((processLine d l).2.1).all benign = true := by
  by_cases hb : isBlank l = true
  · rw [processLine_blank d l hb]
    simp [closeFrame, hb, writesOf]
  · have hb' : isBlank l = false := by simpa using hb
    cases hp : parseCommand l with
    | fail fid err =>
      rw [processLine_fail d l fid err hb' hp]
      simp [closeFrame, respOf, hb', hp, writesOf, benign]
    | ok cmd =>
      by_cases hcl : cmd.action = Action.close
      · have hresp : respOf l =
            { id := cmd.id, success := true,
              data := some [("closed", JVal.jbool true)] } := by
          unfold respOf responseFor execData
          rw [hp]
          dsimp only
          rw [hcl]
        cases hsd : d.shuttingDown
        · rw [processLine_close d l cmd hp hcl hsd]
          simp [closeFrame, hb', hp, hcl, hresp, writesOf_append, writesOf_map_bev,
            all_benign_map_bev, writesOf, benign]
        · rw [processLine_close_shutting d l cmd hp hcl hsd]
          simp [closeFrame, hb', hp, hcl, hresp, writesOf_append, writesOf_map_bev,
            all_benign_map_bev, writesOf, benign]
      · have hresp : respOf l = responseFor cmd := by
          unfold respOf
          rw [hp]
        by_cases hla : cmd.action = Action.launch
        · rw [processLine_launchAction d l cmd hp hla]
          simp [closeFrame, hb', hp, hcl, hresp, writesOf_append, writesOf_map_bev,
            all_benign_map_bev, writesOf, benign]
        · cases hbm : d.bm.browser with
          | none =>
            rw [processLine_auto d l cmd hp hla hcl hbm]
            simp [closeFrame, hb', hp, hcl, hresp, writesOf, benign]
          | some b =>
            rw [processLine_launched d l cmd b hp hla hcl hbm]
            simp [closeFrame, hb', hp, hcl, hresp, writesOf, benign]

/-- The handler loop preserves the exit status and the artifacts, and emits
only benign (non-shutdown) events. -/
theorem processLines_shape (ls : List (List Char)) : ∀ d : DaemonState,
    (processLines d ls).1.exited = d.exited ∧
    (processLines d ls).1.fs = d.fs ∧
    ((processLines d ls).2.1).all benign = true := by
  induction ls with
  | nil => intro d; exact ⟨rfl, rfl, rfl⟩
  | cons l rest ih =>
    intro d
    obtain ⟨h1, h2, _h3, _h4, h5⟩ := processLine_shape d l
    obtain ⟨i1, i2, i3⟩ := ih (processLine d l).1
    unfold processLines
    cases he : (processLine d l).2.2
    · simp [he, h1, h2, h5, i1, i2, i3, List.all_append]
    · simp [he, h1, h2, h5]

theorem counts_of_benign (evs : List Ev) (h : evs.all benign = true) :
    exitCount evs = 0 ∧ cleanCount evs = 0 ∧ serverCloseCount evs = 0 := by
  induction evs with
  | nil => exact ⟨rfl, rfl, rfl⟩
  | cons e rest ih =>
    simp only [List.all_cons, Bool.and_eq_true] at h
    obtain ⟨he, hrest⟩ := h
    obtain ⟨a, b, c⟩ := ih hrest
    cases e with
    | bev x =>
      simp [exitCount, cleanCount, serverCloseCount, List.countP_cons, a, b, c,
        exitCount, cleanCount, serverCloseCount] at a b c ⊢
      exact ⟨a, b, c⟩
    | exec x =>
      simp [exitCount, cleanCount, serverCloseCount, List.countP_cons] at a b c ⊢
      exact ⟨a, b, c⟩
    | wrote x =>
      simp [exitCount, cleanCount, serverCloseCount, List.countP_cons] at a b c ⊢
      exact ⟨a, b, c⟩
    | serverClosed => simp [benign] at he
    | cleanedSocket => simp [benign] at he
    | exitProc code => simp [benign] at he

/-- The data handler preserves the exit status and emits only benign
events. -/
theorem feedChunk_shape (cs : ConnState) (chunk : List Char) :
    (feedChunk cs chunk).1.d.exited = cs.d.exited ∧
    ((feedChunk cs chunk).2).all benign = true := by
  obtain ⟨p1, _p2, p3⟩ :=
    processLines_shape (splitLines (cs.buffer ++ chunk)).1 cs.d
  exact ⟨p1, p3⟩

theorem doStep_exited (cs : ConnState) (s : Step) (h : cs.d.exited.isSome = true) :
    doStep cs s = (cs, []) := by
  obtain ⟨v, hv⟩ := Option.isSome_iff_exists.mp h
  cases s with
  | chunk str => simp [doStep, h]
  | signal => simp [doStep, shutdownSig, h]
  | timer => simp [doStep, timerFire, hv]

theorem shutdownSig_fires (d : DaemonState) (h1 : d.exited.isSome = false)
    (h2 : d.shuttingDown = false) :
    shutdownSig d =
      ({ d with
          bm := (BrowserManager.close d.bm noFail).1
          shuttingDown := true
          fs := cleanupSocket d.fs
          exited := some 0 },
       (BrowserManager.close d.bm noFail).2.map Ev.bev ++
         [Ev.serverClosed, Ev.cleanedSocket, Ev.exitProc 0]) := by
  simp [shutdownSig, h1, h2]

theorem exitCount_append (a b : List Ev) :
    exitCount (a ++ b) = exitCount a + exitCount b :=
  List.countP_append _ _ _

theorem cleanCount_append (a b : List Ev) :
    cleanCount (a ++ b) = cleanCount a + cleanCount b :=
  List.countP_append _ _ _

theorem serverCloseCount_append (a b : List Ev) :
    serverCloseCount (a ++ b) = serverCloseCount a + serverCloseCount b :=
  List.countP_append _ _ _

theorem runSteps_cons (cs : ConnState) (s : Step) (rest : List Step) :
    runSteps cs (s :: rest) =
      ((runSteps (doStep cs s).1 rest).1,
       (doStep cs s).2 ++ (runSteps (doStep cs s).1 rest).2) := rfl

theorem counts_shutdown_run (bevs : List BEvent) :
    exitCount (bevs.map Ev.bev ++
      [Ev.serverClosed, Ev.cleanedSocket, Ev.exitProc 0]) = 1 ∧
    cleanCount (bevs.map Ev.bev ++
      [Ev.serverClosed, Ev.cleanedSocket, Ev.exitProc 0]) = 1 ∧
    serverCloseCount (bevs.map Ev.bev ++
      [Ev.serverClosed, Ev.cleanedSocket, Ev.exitProc 0]) = 1 := by
  obtain ⟨a, b, c⟩ := counts_of_benign _ (all_benign_map_bev bevs)
  refine ⟨?_, ?_, ?_⟩
  · rw [exitCount_append, a]
    rfl
  · rw [cleanCount_append, b]
    rfl
  · rw [serverCloseCount_append, c]
    rfl

/-- Core bound behind shutdown idempotence: along any interleaving of chunks,
signals and the close timer, each shutdown effect (stop accepting, artifact
cleanup, process exit) happens at most once — and not at all if the process
has already exited. -/
theorem runSteps_bound (steps : List Step) : ∀ cs : ConnState,
    exitCount (runSteps cs steps).2 ≤ (if cs.d.exited.isSome = true then 0 else 1) ∧
    cleanCount (runSteps cs steps).2 ≤ (if cs.d.exited.isSome = true then 0 else 1) ∧
    serverCloseCount (runSteps cs steps).2 ≤
      (if cs.d.exited.isSome = true then 0 else 1) := by
  induction steps with
  | nil =>
    intro cs
    refine ⟨?_, ?_, ?_⟩ <;> simp [runSteps, exitCount, cleanCount, serverCloseCount]
  | cons s rest ih =>
    intro cs
    rw [runSteps_cons]
    by_cases hex : cs.d.exited.isSome = true
    · obtain ⟨a, b, c⟩ := ih cs
      rw [if_pos hex] at a b c ⊢
      rw [doStep_exited cs s hex]
      dsimp only
      rw [List.nil_append]
      exact ⟨a, b, c⟩
    · have hex' : cs.d.exited.isSome = false := by simpa using hex
      rw [if_neg hex]
      cases s with
      | chunk str =>
        have hds : doStep cs (Step.chunk str) = feedChunk cs str := by
          simp [doStep, hex']
        rw [hds]
        obtain ⟨f1, f3⟩ := feedChunk_shape cs str
        obtain ⟨z1, z2, z3⟩ := counts_of_benign _ f3
        obtain ⟨a, b, c⟩ := ih (feedChunk cs str).1
        rw [f1, hex'] at a b c
        simp only [Bool.false_eq_true, if_false] at a b c
        refine ⟨?_, ?_, ?_⟩
        · rw [exitCount_append, z1]
          omega
        · rw [cleanCount_append, z2]
          omega
        · rw [serverCloseCount_append, z3]
          omega
      | signal =>
        cases hsd : cs.d.shuttingDown
        · have hfire := shutdownSig_fires cs.d hex' hsd
          have hds : doStep cs Step.signal =
              ({ cs with d := { cs.d with
                  bm := (BrowserManager.close cs.d.bm noFail).1
                  shuttingDown := true
                  fs := cleanupSocket cs.d.fs
                  exited := some 0 } },
               (BrowserManager.close cs.d.bm noFail).2.map Ev.bev ++
                 [Ev.serverClosed, Ev.cleanedSocket, Ev.exitProc 0]) := by
            simp [doStep, hfire]
          rw [hds]
          dsimp only
          obtain ⟨k1, k2, k3⟩ :=
            counts_shutdown_run (BrowserManager.close cs.d.bm noFail).2
          obtain ⟨a, b, c⟩ := ih
            ({ cs with d := { cs.d with
                bm := (BrowserManager.close cs.d.bm noFail).1
                shuttingDown := true
                fs := cleanupSocket cs.d.fs
                exited := some 0 } })
          simp only [Option.isSome_some] at a b c
          simp only [if_pos] at a b c
          refine ⟨?_, ?_, ?_⟩
          · rw [exitCount_append, k1]
            omega
          · rw [cleanCount_append, k2]
            omega
          · rw [serverCloseCount_append, k3]
            omega
        · have hds : doStep cs Step.signal = (cs, []) := by
            simp [doStep, shutdownSig, hex', hsd]
          rw [hds]
          dsimp only
          rw [List.nil_append]
          obtain ⟨a, b, c⟩ := ih cs
          rw [hex'] at a b c
          simp only [Bool.false_eq_true, if_false] at a b c
          exact ⟨a, b, c⟩
      | timer =>
        cases htp : cs.d.timerPending
        · have hds : doStep cs Step.timer = (cs, []) := by
            simp [doStep, timerFire, htp]
          rw [hds]
          dsimp only
          rw [List.nil_append]
          obtain ⟨a, b, c⟩ := ih cs
          rw [hex'] at a b c
          simp only [Bool.false_eq_true, if_false] at a b c
          exact ⟨a, b, c⟩
        · have hin : cs.d.exited.isNone = true := by
            cases he2 : cs.d.exited
            · rfl
            · rw [he2] at hex'
              cases hex'
          have hds : doStep cs Step.timer =
              ({ cs with d := { cs.d with
                  timerPending := false
                  fs := cleanupSocket cs.d.fs
                  exited := some 0 } },
               [Ev.serverClosed, Ev.cleanedSocket, Ev.exitProc 0]) := by
            simp [doStep, timerFire, htp, hin]
          rw [hds]
          dsimp only
          obtain ⟨a, b, c⟩ := ih
            ({ cs with d := { cs.d with
                timerPending := false
                fs := cleanupSocket cs.d.fs
                exited := some 0 } })
          simp only [Option.isSome_some] at a b c
          simp only [if_pos] at a b c
          refine ⟨?_, ?_, ?_⟩
          · rw [exitCount_append]
            have h3 : exitCount [Ev.serverClosed, Ev.cleanedSocket, Ev.exitProc 0] = 1 := rfl
            omega
          · rw [cleanCount_append]
            have h3 : cleanCount [Ev.serverClosed, Ev.cleanedSocket, Ev.exitProc 0] = 1 := rfl
            omega
          · rw [serverCloseCount_append]
            have h3 : serverCloseCount [Ev.serverClosed, Ev.cleanedSocket, Ev.exitProc 0] = 1 := rfl
            omega


theorem splitLines_rem_no_newline : ∀ s : List Char, '\n' ∉ (splitLines s).2
  | [] => by simp [splitLines]
  | c :: rest => by
    have ih := splitLines_rem_no_newline rest
    unfold splitLines
    by_cases hc : c = '\n'
    · rw [if_pos hc]
      exact ih
    · rw [if_neg hc]
      cases h : splitLines rest with
      | mk ls r =>
        rw [h] at ih
        cases ls with
        | nil =>
          dsimp only
          intro hm
          rcases List.mem_cons.mp hm with h1 | h1
          · exact hc h1.symm
          · exact ih h1
        | cons l ls2 =>
          exact ih

theorem splitLines_of_no_newline : ∀ s : List Char, '\n' ∉ s → splitLines s = ([], s)
  | [], _ => rfl
  | c :: rest, h => by
    have hc : ¬ c = '\n' := by
      intro hh
      subst hh
      exact h (List.mem_cons_self _ _)
    have hrest : '\n' ∉ rest := fun hm => h (List.mem_cons_of_mem _ hm)
    unfold splitLines
    rw [if_neg hc, splitLines_of_no_newline rest hrest]

theorem splitLines_cons_newline (rest : List Char) :
    splitLines ('\n' :: rest) = ([] :: (splitLines rest).1, (splitLines rest).2) := by
  conv_lhs => rw [splitLines]
  rw [if_pos rfl]

theorem splitLines_cons_other (c : Char) (rest : List Char) (hc : ¬ c = '\n') :
    splitLines (c :: rest) =
      (match splitLines rest with
       | ([], r) => ([], c :: r)
       | (l :: ls, r) => ((c :: l) :: ls, r)) := by
  conv_lhs => rw [splitLines]
  rw [if_neg hc]

theorem splitLines_append : ∀ x y : List Char,
    splitLines (x ++ y) =
      ((splitLines x).1 ++ (splitLines ((splitLines x).2 ++ y)).1,
       (splitLines ((splitLines x).2 ++ y)).2)
  | [], y => by simp [splitLines]
  | c :: x2, y => by
    have ih := splitLines_append x2 y
    by_cases hc : c = '\n'
    · subst hc
      rw [List.cons_append, splitLines_cons_newline (x2 ++ y), ih,
        splitLines_cons_newline x2]
      dsimp only
      rw [List.cons_append]
    · rw [List.cons_append, splitLines_cons_other c (x2 ++ y) hc, ih,
        splitLines_cons_other c x2 hc]
      cases h1 : splitLines x2 with
      | mk ls1 r1 =>
        cases ls1 with
        | nil =>
          dsimp only
          rw [List.nil_append, List.nil_append, List.cons_append,
            splitLines_cons_other c (r1 ++ y) hc]
        | cons l1 ls2 =>
          dsimp only
          rw [List.cons_append, List.cons_append]

theorem processLines_no_close (ls : List (List Char)) : ∀ d : DaemonState,
    (∀ l ∈ ls, closeFrame l = false) →
    (processLines d ls).2.2 = [] ∧
    writesOf (processLines d ls).2.1 =
      (ls.filter (fun l => !(isBlank l))).map respOf ∧
    (processLines d ls).1.exited = d.exited := by
  induction ls with
  | nil =>
    intro d _
    exact ⟨rfl, rfl, rfl⟩
  | cons l rest ih =>
    intro d h
    have hl : closeFrame l = false := h l (List.mem_cons_self _ _)
    have hrest : ∀ x ∈ rest, closeFrame x = false :=
      fun x hx => h x (List.mem_cons_of_mem _ hx)
    obtain ⟨s1, _s2, s3, s4, _s5⟩ := processLine_shape d l
    obtain ⟨i1, i2, i3⟩ := ih (processLine d l).1 hrest
    have he : (processLine d l).2.2 = false := by rw [s3, hl]
    have hcons : processLines d (l :: rest) =
        (if (processLine d l).2.2 then
          ((processLine d l).1, (processLine d l).2.1, rest)
         else
          ((processLines (processLine d l).1 rest).1,
           (processLine d l).2.1 ++ (processLines (processLine d l).1 rest).2.1,
           (processLines (processLine d l).1 rest).2.2)) := rfl
    rw [hcons, he]
    simp only [Bool.false_eq_true, if_false]
    refine ⟨i1, ?_, i3.trans s1⟩
    rw [writesOf_append, s4, i2, List.filter_cons]
    by_cases hbl : isBlank l = true
    · simp [hbl]
    · have hbl' : isBlank l = false := by simpa using hbl
      simp [hbl']

theorem feedChunk_run (buf : List Char) (d : DaemonState) (c : List Char)
    (hnc : ∀ l ∈ (splitLines (buf ++ c)).1, closeFrame l = false) :
    feedChunk ⟨buf, d⟩ c =
      (⟨(splitLines (buf ++ c)).2, (processLines d (splitLines (buf ++ c)).1).1⟩,
       (processLines d (splitLines (buf ++ c)).1).2.1) := by
  obtain ⟨p1, _p2, _p3⟩ := processLines_no_close (splitLines (buf ++ c)).1 d hnc
  unfold feedChunk
  dsimp only
  rw [p1]
  rfl

/-- Along any chunking whose stream contains no close frame, the responses
written are exactly the responses of the complete non-blank lines of the
concatenated stream, in order. -/
theorem feedChunks_writes (chunks : List (List Char)) : ∀ (d : DaemonState)
    (buf : List Char), '\n' ∉ buf →
    (∀ l ∈ (splitLines (buf ++ chunks.flatten)).1, closeFrame l = false) →
    writesOf (feedChunks ⟨buf, d⟩ chunks).2 =
      ((splitLines (buf ++ chunks.flatten)).1.filter (fun l => !(isBlank l))).map
        respOf := by
  induction chunks with
  | nil =>
    intro d buf hb _hnc
    rw [List.flatten_nil, List.append_nil, splitLines_of_no_newline buf hb]
    rfl
  | cons c rest ih =>
    intro d buf hb hnc
    rw [List.flatten_cons, ← List.append_assoc] at hnc ⊢
    have hdec := splitLines_append (buf ++ c) rest.flatten
    have hnc1 : ∀ l ∈ (splitLines (buf ++ c)).1, closeFrame l = false := by
      intro l hm
      refine hnc l ?_
      rw [hdec]
      exact List.mem_append_left _ hm
    have hnc2 : ∀ l ∈ (splitLines ((splitLines (buf ++ c)).2 ++ rest.flatten)).1,
        closeFrame l = false := by
      intro l hm
      refine hnc l ?_
      rw [hdec]
      exact List.mem_append_right _ hm
    obtain ⟨_q1, q2, _q3⟩ := processLines_no_close (splitLines (buf ++ c)).1 d hnc1
    have hfc := feedChunk_run buf d c hnc1
    show writesOf (feedChunks ⟨buf, d⟩ (c :: rest)).2 = _
    have hcons : feedChunks ⟨buf, d⟩ (c :: rest) =
        ((feedChunks (feedChunk ⟨buf, d⟩ c).1 rest).1,
         (feedChunk ⟨buf, d⟩ c).2 ++ (feedChunks (feedChunk ⟨buf, d⟩ c).1 rest).2) :=
      rfl
    rw [hcons, hfc]
    dsimp only
    rw [writesOf_append, q2,
      ih (processLines d (splitLines (buf ++ c)).1).1 (splitLines (buf ++ c)).2
        (splitLines_rem_no_newline _) hnc2,
      hdec]
    dsimp only
    rw [List.filter_append, List.map_append]

theorem close_fst (st : BrowserState) (f : FailOracle) :
    (BrowserManager.close st f).1 =
      { browser := none, context := none, page := none, nextId := st.nextId } := by
  rcases st with ⟨b, c, p, n⟩
  cases b <;> cases c <;> cases p <;> rfl

theorem close_browserClosed_mem (st : BrowserState) (f : FailOracle) (b : Nat)
    (h : st.browser = some b) :
    BEvent.browserClosed b (!f.browserFails) ∈ (BrowserManager.close st f).2 := by
  rcases st with ⟨br, c, p, n⟩
  cases br with
  | none => simp at h
  | some b0 =>
    cases h
    cases c <;> cases p <;> simp [BrowserManager.close]

/-- Claim C9: invoking `launch` while a resource is already present replaces
it wholesale: the existing handles are closed first (in particular the
existing browser handle is closed), and only then a new browser with the
supplied or default engine and headless flag, a context with the supplied or
default viewport, and an initial page are created, all fresh. -/
theorem claim_c9 (st : BrowserState) (opts : Command) (f : FailOracle) (b : Nat)
    (h : st.browser = some b) :
    BrowserManager.launch st opts f =
      ({ browser := some st.nextId, context := some (st.nextId + 1),
         page := some (st.nextId + 2), nextId := st.nextId + 3 },
       (BrowserManager.close st f).2 ++
         [BEvent.browserLaunched st.nextId (opts.browser.getD Engine.chromium)
            (opts.headless.getD true),
          BEvent.contextCreated (st.nextId + 1) (opts.viewport.getD ⟨1280, 720⟩),
          BEvent.pageCreated (st.nextId + 2)]) ∧
    BEvent.browserClosed b (!f.browserFails) ∈ (BrowserManager.close st f).2 := by
  refine ⟨?_, close_browserClosed_mem st f b h⟩
  have hb : st.browser.isSome = true := by rw [h]; rfl
  have hc := close_fst st f
  unfold BrowserManager.launch
  rw [if_pos hb]
  rcases hcl : BrowserManager.close st f with ⟨st1, cevs⟩
  rw [hcl] at hc
  simp only at hc
  subst hc
  rfl

/-- Witness for C9 at a concrete already-launched state. -/
theorem claim_c9_witness :
    ({ browser := some 0, context := some 1, page := some 2,
       nextId := 3 : BrowserState }.browser = some 0) ∧
    BrowserManager.launch
        { browser := some 0, context := some 1, page := some 2, nextId := 3 }
        { id := "l1", action := Action.launch, browser := some Engine.firefox,
          viewport := some ⟨800, 600⟩ } noFail =
      ({ browser := some 3, context := some 4, page := some 5, nextId := 6 },
       [BEvent.pageClosed 2 true, BEvent.contextClosed 1 true,
        BEvent.browserClosed 0 true,
        BEvent.browserLaunched 3 Engine.firefox true,
        BEvent.contextCreated 4 ⟨800, 600⟩, BEvent.pageCreated 5]) := by
  constructor
  · rfl
  · have h := claim_c9
      { browser := some 0, context := some 1, page := some 2, nextId := 3 }
      { id := "l1", action := Action.launch, browser := some Engine.firefox,
        viewport := some ⟨800, 600⟩ } noFail 0 rfl
    exact h.1.trans (by decide)

/-- Claim C10: `BrowserManager.close` never raises (it is a total function of
the embedding, failures of the sub-handle closures being swallowed via the
oracle) and always establishes the not-launched state: from every prior state
and failure pattern the browser, context and page handles are all null and
`isLaunched` is false afterwards; on a never-launched manager it is a no-op
(no state change and no side effect). -/
theorem claim_c10 :
    (∀ (st : BrowserState) (f : FailOracle),
      (BrowserManager.close st f).1.browser = none ∧
      (BrowserManager.close st f).1.context = none ∧
      (BrowserManager.close st f).1.page = none ∧
      BrowserManager.isLaunched (BrowserManager.close st f).1 = false) ∧
    (∀ f : FailOracle, BrowserManager.close {} f = ({}, [])) := by
  constructor
  · intro st f
    rw [close_fst]
    exact ⟨rfl, rfl, rfl, rfl⟩
  · intro f
    rfl

/-- Claim C7 (core): `isDaemonRunning` returns false when the pid marker is
absent; when the marker records a pid that is not alive it removes both the
marker and the socket artifact and returns false; when the recorded pid is
alive it returns true and touches nothing. -/
theorem claim_c7 :
    (∀ (fs : FsState) (live : List Nat), fs.pidFile = none →
      isDaemonRunning fs live = (false, fs)) ∧
    (∀ (fs : FsState) (live : List Nat) (content : List Char) (pid : Nat),
      fs.pidFile = some content → parsePid content = some pid → pid ∉ live →
      isDaemonRunning fs live = (false, { socketFile := false, pidFile := none })) ∧
    (∀ (fs : FsState) (live : List Nat) (content : List Char) (pid : Nat),
      fs.pidFile = some content → parsePid content = some pid → pid ∈ live →
      isDaemonRunning fs live = (true, fs)) := by
  refine ⟨?_, ?_, ?_⟩
  · intro fs live h
    unfold isDaemonRunning
    rw [h]
  · intro fs live content pid hf hp hl
    have hcon : live.contains pid = false := by simpa using hl
    rcases fs with ⟨sock, pf⟩
    cases hf
    unfold isDaemonRunning
    dsimp only
    rw [hp]
    dsimp only
    rw [hcon]
    rfl
  · intro fs live content pid hf hp hl
    have hcon : live.contains pid = true := by simpa using hl
    rcases fs with ⟨sock, pf⟩
    cases hf
    unfold isDaemonRunning
    dsimp only
    rw [hp]
    dsimp only
    rw [hcon]
    rfl

/-- Witness for C7: concrete marker states (absent marker; stale pid 42 with
no live process; live pid 42). -/
theorem claim_c7_witness :
    isDaemonRunning ⟨true, none⟩ [42] = (false, ⟨true, none⟩) ∧
    isDaemonRunning ⟨true, some ['4', '2']⟩ [] = (false, ⟨false, none⟩) ∧
    isDaemonRunning ⟨true, some ['4', '2']⟩ [42] = (true, ⟨true, some ['4', '2']⟩) :=
  ⟨claim_c7.1 _ _ rfl,
   claim_c7.2.1 _ _ ['4', '2'] 42 rfl (by decide) (by decide),
   claim_c7.2.2 _ _ ['4', '2'] 42 rfl (by decide) (by decide)⟩

/-- Claim C2 is violated by the code (code bug): starting a daemon while the
socket and pid marker of a live instance are present does not fail fast
leaving them untouched — `startDaemon` unconditionally runs `cleanupSocket`,
deleting the socket and pid marker of the running instance, overwrites the pid
file with its own pid, and then binds successfully (the path having just been
unlinked), so the start attempt does not even exit nonzero. -/
theorem claim_c2_evidence :
    startDaemonStartup ⟨true, some ['4', '2']⟩ 100 =
      (⟨true, some ['1', '0', '0']⟩,
       [StartEv.removedSocketFile, StartEv.removedPidFile,
        StartEv.wrotePidFile 100, StartEv.bindOk],
       none) := by
  decide

/-- Claim C3: whenever a command line arrives while the resource is absent
and its action is neither `launch` nor `close`, exactly one implicit
acquisition with the default options (chromium engine, headless, 1280×720
viewport) happens before the command executes — the trace of the handler is
literally the three default-option acquisition effects, then the execution,
then the response; and two back-to-back action commands on a fresh daemon
trigger exactly one acquisition, not two. -/
theorem claim_c3 :
    (∀ (d : DaemonState) (l : List Char) (cmd : Command),
      parseCommand l = ParseResult.ok cmd →
      cmd.action ≠ Action.launch → cmd.action ≠ Action.close →
      d.bm.browser = none →
      processLine d l =
        ({ d with bm :=
            { browser := some d.bm.nextId, context := some (d.bm.nextId + 1),
              page := some (d.bm.nextId + 2), nextId := d.bm.nextId + 3 } },
         [Ev.bev (BEvent.browserLaunched d.bm.nextId Engine.chromium true),
          Ev.bev (BEvent.contextCreated (d.bm.nextId + 1) ⟨1280, 720⟩),
          Ev.bev (BEvent.pageCreated (d.bm.nextId + 2)),
          Ev.exec cmd, Ev.wrote (responseFor cmd)], false)) ∧
    (∀ (d : DaemonState) (l1 l2 : List Char) (c1 c2 : Command),
      parseCommand l1 = ParseResult.ok c1 → parseCommand l2 = ParseResult.ok c2 →
      c1.action ≠ Action.launch → c1.action ≠ Action.close →
      c2.action ≠ Action.launch → c2.action ≠ Action.close →
      d.bm.browser = none →
      acquisitions (processLines d [l1, l2]).2.1 = 1) := by
  constructor
  · exact processLine_auto
  · intro d l1 l2 c1 c2 hp1 hp2 h11 h12 h21 h22 hbm
    have e1 := processLine_auto d l1 c1 hp1 h11 h12 hbm
    have e2 := processLine_launched
      ({ d with bm :=
          { browser := some d.bm.nextId, context := some (d.bm.nextId + 1),
            page := some (d.bm.nextId + 2), nextId := d.bm.nextId + 3 } })
      l2 c2 d.bm.nextId hp2 h21 h22 rfl
    simp [processLines, e1, e2, acquisitions]

/-- Witness for C3: a navigate then a click command on a fresh daemon. -/
theorem claim_c3_witness :
    parseCommand "\x7b\x22id\x22:\x22a1\x22,\x22action\x22:\x22navigate\x22\x7d".toList =
      ParseResult.ok { id := "a1", action := Action.navigate } ∧
    parseCommand "\x7b\x22id\x22:\x22a2\x22,\x22action\x22:\x22click\x22\x7d".toList =
      ParseResult.ok { id := "a2", action := Action.click } ∧
    acquisitions
      (processLines (initialDaemon 7)
        ["\x7b\x22id\x22:\x22a1\x22,\x22action\x22:\x22navigate\x22\x7d".toList,
         "\x7b\x22id\x22:\x22a2\x22,\x22action\x22:\x22click\x22\x7d".toList]).2.1 = 1 :=
  ⟨by decide, by decide,
   claim_c3.2 (initialDaemon 7) _ _
     { id := "a1", action := Action.navigate }
     { id := "a2", action := Action.click }
     (by decide) (by decide) (by decide) (by decide) (by decide) (by decide) rfl⟩

/-- Claim C4: processing a `close` command releases the resource, writes the
success Response (`closed: true`, correlated to the command id), and only
afterwards — when the grace timer fires — stops accepting connections,
removes the socket and pid marker, and exits with status 0, strictly in that
order in the effect trace. -/
theorem claim_c4 (d : DaemonState) (l : List Char) (cmd : Command)
    (hp : parseCommand l = ParseResult.ok cmd) (hc : cmd.action = Action.close)
    (hs : d.shuttingDown = false) (he : d.exited = none) :
    closeThenTimer d l =
      ({ d with
          bm := (BrowserManager.close d.bm noFail).1
          shuttingDown := true
          timerPending := false
          fs := cleanupSocket d.fs
          exited := some 0 },
       (BrowserManager.close d.bm noFail).2.map Ev.bev ++
         ([Ev.wrote { id := cmd.id, success := true,
                      data := some [("closed", JVal.jbool true)] }] ++
          [Ev.serverClosed, Ev.cleanedSocket, Ev.exitProc 0])) := by
  have e1 := processLine_close d l cmd hp hc hs
  unfold closeThenTimer
  rw [e1]
  simp [timerFire, he]

/-- Witness for C4: the §8 concrete scenario `{"id":"b2","action":"close"}` on
a freshly started daemon. -/
theorem claim_c4_witness :
    closeThenTimer (initialDaemon 5)
        "\x7b\x22id\x22:\x22b2\x22,\x22action\x22:\x22close\x22\x7d".toList =
      ({ bm := { browser := none, context := none, page := none, nextId := 0 },
         fs := { socketFile := false, pidFile := none },
         shuttingDown := true, timerPending := false, exited := some 0 },
       [Ev.wrote { id := "b2", success := true,
                   data := some [("closed", JVal.jbool true)] },
        Ev.serverClosed, Ev.cleanedSocket, Ev.exitProc 0]) :=
  (claim_c4 (initialDaemon 5)
      "\x7b\x22id\x22:\x22b2\x22,\x22action\x22:\x22close\x22\x7d".toList
      { id := "b2", action := Action.close }
      (by decide) rfl rfl rfl).trans (by decide)

/-- Claim C8: a line that is not well-formed JSON yields an error Response
with `success := false`, a message describing the malformed input, and the
fallback correlation id `unknown` (or the recovered id fragment); the daemon
state is untouched (the line reaches neither the Dispatcher nor the
resource: the only effect is the error write), the handler does not stop
(flag `false`), and subsequent lines keep being processed. -/
theorem claim_c8 :
    (∀ (d : DaemonState) (l : List Char) (fid : Option String) (err : String),
      isBlank l = false → parseCommand l = ParseResult.fail fid err →
      processLine d l =
        (d, [Ev.wrote (errorResponse (fid.getD "unknown") err)], false) ∧
      (errorResponse (fid.getD "unknown") err).success = false) ∧
    (∀ (d : DaemonState) (l : List Char),
      isBlank l = false → parseJson l = none →
      processLine d l =
        (d, [Ev.wrote (errorResponse "unknown" "Malformed command: invalid JSON")],
         false)) ∧
    (∀ (d : DaemonState) (l : List Char) (rest : List (List Char))
        (fid : Option String) (err : String),
      isBlank l = false → parseCommand l = ParseResult.fail fid err →
      processLines d (l :: rest) =
        ((processLines d rest).1,
         Ev.wrote (errorResponse (fid.getD "unknown") err) :: (processLines d rest).2.1,
         (processLines d rest).2.2)) := by
  refine ⟨?_, ?_, ?_⟩
  · intro d l fid err h1 h2
    exact ⟨processLine_fail d l fid err h1 h2, rfl⟩
  · intro d l h1 h2
    have := processLine_fail d l none "Malformed command: invalid JSON" h1
      (parseCommand_of_noJson h2)
    simpa using this
  · intro d l rest fid err h1 h2
    simp [processLines, processLine_fail d l fid err h1 h2]

/-- Witness for C8: the `not json` example of the spec followed by a well-formed
navigate command; the bad line produces exactly the fallback error response
and the next line is still processed. -/
theorem claim_c8_witness :
    isBlank "not json".toList = false ∧
    processLines (initialDaemon 7)
        ["not json".toList,
         "\x7b\x22id\x22:\x22a1\x22,\x22action\x22:\x22navigate\x22\x7d".toList] =
      ((processLines (initialDaemon 7)
          ["\x7b\x22id\x22:\x22a1\x22,\x22action\x22:\x22navigate\x22\x7d".toList]).1,
       Ev.wrote (errorResponse "unknown" "Malformed command: invalid JSON") ::
         (processLines (initialDaemon 7)
           ["\x7b\x22id\x22:\x22a1\x22,\x22action\x22:\x22navigate\x22\x7d".toList]).2.1,
       (processLines (initialDaemon 7)
         ["\x7b\x22id\x22:\x22a1\x22,\x22action\x22:\x22navigate\x22\x7d".toList]).2.2) :=
  ⟨by decide,
   claim_c8.2.2 (initialDaemon 7) "not json".toList
     ["\x7b\x22id\x22:\x22a1\x22,\x22action\x22:\x22navigate\x22\x7d".toList]
     none "Malformed command: invalid JSON" (by decide) (by decide)⟩

/-- Claim C1 (amended): for every connection and every way the incoming byte
stream is split into chunks, **provided no frame of the stream is a close
command**, each newline-terminated non-blank line is decoded and dispatched
exactly once and strictly in order: the responses written to the connection
are exactly the responses of the frames of the concatenated stream, in the
order the commands were received — independently of how the stream was
chunked (frames split across reads and multiple frames per read included).
The restriction is forced by the early return of the close path: frames buffered
behind a close frame are dispatched only if more data arrives later, so for
close-carrying streams the dispatched set depends on the chunking. -/
theorem claim_c1 (chunks : List (List Char)) (pid : Nat)
    (hnc : ∀ l ∈ (splitLines chunks.flatten).1, closeFrame l = false) :
    writesOf (feedChunks (initialConn pid) chunks).2 =
      (frames chunks.flatten).map respOf := by
  have h := feedChunks_writes chunks (initialDaemon pid) []
    (by simp) (by simpa using hnc)
  simpa [initialConn, frames] using h

/-- Witness for C1: a navigate frame split across two reads followed by a
read carrying two frames at once; every frame is answered exactly once, in
order. -/
theorem claim_c1_witness :
    (∀ l ∈ (splitLines
        ("\x7b\x22id\x22:\x22a1\x22,\x22action\x22:\x22nav" ++
         "igate\x22\x7d\n" ++
         "\x7b\x22id\x22:\x22a2\x22,\x22action\x22:\x22click\x22\x7d\n\x7b\x22id\x22:\x22a3\x22,\x22action\x22:\x22hover\x22\x7d\n").toList).1,
      closeFrame l = false) ∧
    writesOf (feedChunks (initialConn 9)
        ["\x7b\x22id\x22:\x22a1\x22,\x22action\x22:\x22nav".toList,
         ("igate\x22\x7d\n").toList,
         ("\x7b\x22id\x22:\x22a2\x22,\x22action\x22:\x22click\x22\x7d\n\x7b\x22id\x22:\x22a3\x22,\x22action\x22:\x22hover\x22\x7d\n").toList]).2 =
      (frames
        ("\x7b\x22id\x22:\x22a1\x22,\x22action\x22:\x22nav" ++
         "igate\x22\x7d\n" ++
         "\x7b\x22id\x22:\x22a2\x22,\x22action\x22:\x22click\x22\x7d\n\x7b\x22id\x22:\x22a3\x22,\x22action\x22:\x22hover\x22\x7d\n").toList).map respOf := by
  constructor
  · decide
  · have h := claim_c1
      ["\x7b\x22id\x22:\x22a1\x22,\x22action\x22:\x22nav".toList,
       ("igate\x22\x7d\n").toList,
       ("\x7b\x22id\x22:\x22a2\x22,\x22action\x22:\x22click\x22\x7d\n\x7b\x22id\x22:\x22a3\x22,\x22action\x22:\x22hover\x22\x7d\n").toList]
      9 (by decide)
    exact h.trans (by decide)

/-- Counterexample to C1 as stated: with a close frame in the middle of a
single read, the frame after the close is never dispatched (the handler
returns early and no further data ever arrives), so the responses written
are not the responses of all frames of the stream. -/
theorem claim_c1_counterexample :
    ¬ (writesOf (feedChunks (initialConn 9)
        [("\x7b\x22id\x22:\x22c1\x22,\x22action\x22:\x22hover\x22\x7d\n\x7b\x22id\x22:\x22c2\x22,\x22action\x22:\x22close\x22\x7d\n\x7b\x22id\x22:\x22c3\x22,\x22action\x22:\x22click\x22\x7d\n").toList]).2 =
      (frames
        ("\x7b\x22id\x22:\x22c1\x22,\x22action\x22:\x22hover\x22\x7d\n\x7b\x22id\x22:\x22c2\x22,\x22action\x22:\x22close\x22\x7d\n\x7b\x22id\x22:\x22c3\x22,\x22action\x22:\x22click\x22\x7d\n").toList).map respOf) := by
  decide

/-- Claim C5 is violated by the code (code bug): after a close command is
answered, the daemon neither closes the connection nor stops reading during
the 100 ms grace window; a command arriving in a second chunk before the
timer fires is parsed, triggers a fresh implicit browser acquisition, and
receives a `success: true` response — not "never arrives or a
TransportError-class failure" as the spec requires. -/
theorem claim_c5_evidence :
    writesOf (runSteps (initialConn 7)
        [Step.chunk ("\x7b\x22id\x22:\x22b2\x22,\x22action\x22:\x22close\x22\x7d\n").toList,
         Step.chunk ("\x7b\x22id\x22:\x22n1\x22,\x22action\x22:\x22navigate\x22\x7d\n").toList]).2 =
      [{ id := "b2", success := true, data := some [("closed", JVal.jbool true)] },
       { id := "n1", success := true, data := some [("ok", JVal.jbool true)] }] := by
  decide

/-- Claim C6: shutdown is idempotent.  Along every interleaving of data
chunks (which may carry close commands), termination signals and the pending
close timer, starting from a freshly started daemon, each piece of the
cleanup sequence — stop accepting connections, remove socket and marker,
process exit — executes at most once: no double cleanup, no double exit. -/
theorem claim_c6 (steps : List Step) (pid : Nat) :
    exitCount (runSteps (initialConn pid) steps).2 ≤ 1 ∧
    cleanCount (runSteps (initialConn pid) steps).2 ≤ 1 ∧
    serverCloseCount (runSteps (initialConn pid) steps).2 ≤ 1 := by
  obtain ⟨a, b, c⟩ := runSteps_bound steps (initialConn pid)
  simp only [initialConn, initialDaemon] at a b c
  simpa using ⟨a, b, c⟩

end AgentBrowser
